import Mathlib

/-!
Verification of the ThreadPool repository against its specification.

The definitions below are a shallow embedding of the C++ sources:
  - src/include/ThreadTask.hpp, src/src/ThreadTask.cpp   (task record)
  - src/include/PriorityQueue.hpp                        (heap-ordered queue)
  - src/include/ThreadPool.hpp                           (dispatcher, sizing)

Machine integers are modelled as Nat with explicit modular arithmetic at
the points where the C++ performs an unsigned conversion.  std::promise is
modelled as an Option value (the source never calls set_exception), and a
user callable is modelled as a function from the invocation index to
Option of a value, where none models a throw on that invocation.
-/

namespace ThreadPoolSpec

/-- The uint8_t value of the int difference a - b of two uint8_t
operands: unsigned conversion reduces modulo 2^8, i.e. the subtraction
wraps around.  (For operands below 256 this is exactly the C++
behaviour; both stored fields and parameters of the modelled functions
are 8-bit.) -/
def u8_wrap_sub (a b : Nat) : Nat := (a % 256 + 256 - b % 256) % 256

/-- The uint16_t value of the int difference a - b of two uint16_t
operands: the subtraction wraps around modulo 2^16. -/
def u16_wrap_sub (a b : Nat) : Nat := (a % 65536 + 65536 - b % 65536) % 65536

/-- TaskState from ThreadTask.hpp: PENDING = 0, COMPLETED, RETRIEVED. -/
inductive TaskState where
  | PENDING
  | COMPLETED
  | RETRIEVED
deriving DecidableEq, Repr

/-- The ThreadTask record (ThreadTask.hpp).  `promise` models
std::promise of std::any: some v once set_value(v) has run, none while
unfulfilled (set_exception is never called in the source).  `calls`
instruments the number of invocations of m_function so that attempt
counts can be stated. -/
structure ThreadTask (α : Type) where
  priority : Nat
  retries : Nat
  state : TaskState
  promise : Option α
  calls : Nat
deriving DecidableEq, Repr

/-- The template constructor ThreadTask(Func, Args..., priority, retries):
stores the callable, priority (uint16_t parameter) and retries (uint8_t
parameter), and initialises the state to PENDING.  The reductions model
the unsigned conversions applied to the constructor arguments. -/
def task_construct (α : Type) (priority retries : Nat) : ThreadTask α :=
  { priority := priority % 65536
    retries := retries % 256
    state := TaskState.PENDING
    promise := none
    calls := 0 }

/-- get_retries_local (ThreadTask.cpp:196): returns m_retries. -/
def get_retries_local (t : ThreadTask α) : Nat := t.retries

/-- get_priority_local (ThreadTask.cpp:203): returns m_priority. -/
def get_priority_local (t : ThreadTask α) : Nat := t.priority

/-- increase_retries_local (ThreadTask.cpp:210):
uint16_t _results = m_retries + amount (the int sum of two uint8_t values
is at most 510, so it fits in the uint16_t temporary), then m_retries is
set to 255 when the sum exceeds 255, otherwise to the sum. -/
def increase_retries_local (amount : Nat) (t : ThreadTask α) : ThreadTask α :=
  let a := amount % 256
  let res := t.retries + a
  { t with retries := if 255 < res then 255 else res }

/-- decrease_retries_local (ThreadTask.cpp:220):
uint8_t _results = m_retries - amount wraps modulo 256 (unsigned 8-bit
conversion of the int difference); the subsequent
std::clamp(_results, 0, 255) is the identity on a uint8_t value. -/
def decrease_retries_local (amount : Nat) (t : ThreadTask α) : ThreadTask α :=
  { t with retries := u8_wrap_sub t.retries amount }

/-- increase_priority_local (ThreadTask.cpp:230):
uint16_t _results = m_priority + amount truncates the int sum to 16 bits
on store; the following comparison (_results > 65535) is then always
false, so the stored value is the truncated sum (kept as in the source). -/
def increase_priority_local (amount : Nat) (t : ThreadTask α) : ThreadTask α :=
  let res := (t.priority % 65536 + amount % 65536) % 65536
  { t with priority := if 65535 < res then 65535 else res }

/-- decrease_priority_local (ThreadTask.cpp:240):
uint16_t _results = m_priority - amount wraps modulo 65536; the
subsequent std::clamp(_results, 0, 65535) is the identity. -/
def decrease_priority_local (amount : Nat) (t : ThreadTask α) : ThreadTask α :=
  { t with priority := u16_wrap_sub t.priority amount }

/-- decrease_retries() (ThreadTask.cpp:108): decrease_retries_local(1). -/
def decrease_retries (t : ThreadTask α) : ThreadTask α :=
  decrease_retries_local 1 t

/-- is_void_function for decltype(m_function): m_function has type
std::function returning std::any (ThreadTask.hpp:437), whose
invoke_result is std::any, not void, so the template constant is false. -/
def is_void_function : Bool := false

/-- try_execute_local (ThreadTask.cpp:157).  The callable is modelled by
f : Nat -> Option value, giving the outcome of the n-th invocation (none
models a throw).  Since is_void_function is false, the executed branch is
m_promise.set_value(m_function()): the callable is invoked once; if it
throws, catch (...) returns false; set_value itself throws (and is caught
by the same handler) when the promise is already satisfied; otherwise the
promise is fulfilled, the state is set to COMPLETED and true is
returned. -/
def try_execute (f : Nat → Option α) (t : ThreadTask α) : Bool × ThreadTask α :=
  match f t.calls with
  | none => (false, { t with calls := t.calls + 1 })
  | some v =>
    if t.promise.isSome then (false, { t with calls := t.calls + 1 })
    else (true, { t with calls := t.calls + 1
                         promise := some v
                         state := TaskState.COMPLETED })

/-- is_done (ThreadTask.cpp:182): returns true when
is_void_function and state == COMPLETED (a branch never taken, since
is_void_function is false for decltype(m_function)), otherwise returns
state == RETRIEVED. -/
def is_done (t : ThreadTask α) : Bool :=
  if is_void_function && decide (t.state = TaskState.COMPLETED) then true
  else decide (t.state = TaskState.RETRIEVED)

/-- The two std::logic_error failures of get_future_local
(ThreadTask.hpp:393): AlreadyRetrieved models
logic_error with message Future already retrieved, NotYetExecuted models
logic_error with message Task not yet executed. -/
inductive FutureError where
  | AlreadyRetrieved
  | NotYetExecuted
deriving DecidableEq, Repr

/-- get_future / get_future_local for the non-void instantiation
(ThreadTask.cpp:66, ThreadTask.hpp:393): on RETRIEVED throw
AlreadyRetrieved; on PENDING throw NotYetExecuted; otherwise (COMPLETED)
set the state to RETRIEVED and return m_promise.get_future(), modelled
as the promise contents. -/
def get_future (t : ThreadTask α) :
    Except FutureError (Option α × ThreadTask α) :=
  match t.state with
  | TaskState.RETRIEVED => Except.error FutureError.AlreadyRetrieved
  | TaskState.PENDING => Except.error FutureError.NotYetExecuted
  | TaskState.COMPLETED =>
      Except.ok (t.promise, { t with state := TaskState.RETRIEVED })

/-- The continuation of the do-while loop of execute_local
(ThreadTask.cpp:143) after the retry counter has been observed positive:
try_execute once; on success stop; otherwise decrease_retries() and
continue while get_retries_local() > 0.  The positivity argument makes
the counter strictly decrease (no wrap inside the loop). -/
def execute_go (f : Nat → Option α) (t : ThreadTask α)
    (h : 0 < t.retries) : ThreadTask α :=
  if (try_execute f t).1 = true then (try_execute f t).2
  else
    if h2 : (decrease_retries ((try_execute f t).2)).retries = 0 then
      decrease_retries ((try_execute f t).2)
    else
      execute_go f (decrease_retries ((try_execute f t).2))
        (Nat.pos_of_ne_zero h2)
termination_by t.retries
decreasing_by
  have hr : ((try_execute f t).2).retries = t.retries := by
    unfold try_execute
    rcases f t.calls with _ | v
    · rfl
    · dsimp only
      split <;> rfl
  simp only [decrease_retries, decrease_retries_local, u8_wrap_sub]
  rw [hr]
  omega

/-- execute_local (ThreadTask.cpp:143): the do-while loop, with its first
iteration unrolled so that the wrap of decrease_retries at zero is
visible before the strictly-decreasing continuation is entered. -/
def execute_local (f : Nat → Option α) (t : ThreadTask α) : ThreadTask α :=
  if (try_execute f t).1 = true then (try_execute f t).2
  else
    if h2 : (decrease_retries ((try_execute f t).2)).retries = 0 then
      decrease_retries ((try_execute f t).2)
    else
      execute_go f (decrease_retries ((try_execute f t).2))
        (Nat.pos_of_ne_zero h2)

/-- execute (ThreadTask.cpp:54): calls execute_local. -/
def execute (f : Nat → Option α) (t : ThreadTask α) : ThreadTask α :=
  execute_local f t

/-- The body one worker runs on a popped task in priority mode
(ThreadPool.hpp:786-789): static_cast to void of task.try_execute().  No
exception escapes try_execute (it has a catch-all), so the surrounding
catch blocks that would call handle_error are not reached for a throwing
user callable; the task after the single attempt is the result. -/
def worker_run_task (f : Nat → Option α) (t : ThreadTask α) : ThreadTask α :=
  (try_execute f t).2

/-- The exit decision at the top of the worker loop body, taken after the
condition-variable wait (ThreadPool.hpp:769): the worker returns when
stop_requested() or m_tasks.empty(). -/
def worker_should_exit (stop_requested : Bool) (tasks : List (ThreadTask α)) : Bool :=
  stop_requested || tasks.isEmpty

/-- The per-submission TaskBuilder of ThreadPool.hpp: its constructor
initialises m_priority(0), m_retries(0), m_submitted(false); both fields
are declared uint8_t (ThreadPool.hpp:413). -/
structure TaskBuilder where
  priority : Nat
  retries : Nat
  submitted : Bool
deriving DecidableEq, Repr

/-- TaskBuilder construction state (ThreadPool.hpp:129-134). -/
def builder_init : TaskBuilder :=
  { priority := 0, retries := 0, submitted := false }

/-- TaskBuilder::set_priority (ThreadPool.hpp:191): the parameter is
const uint8_t&, so the supplied value is first converted to uint8_t. -/
def TaskBuilder.set_priority (b : TaskBuilder) (p : Nat) : TaskBuilder :=
  { b with priority := p % 256 }

/-- TaskBuilder::set_retries (ThreadPool.hpp:218): parameter
const uint8_t&. -/
def TaskBuilder.set_retries (b : TaskBuilder) (r : Nat) : TaskBuilder :=
  { b with retries := r % 256 }

/-- TaskBuilder::submit (ThreadPool.hpp:250): when not yet submitted,
emplace_task(std::move(m_task), m_priority, m_retries) constructs the
ThreadTask in the queue from the stored (uint8_t) priority and retries;
the record the queue receives is returned. -/
def builder_submit (α : Type) (b : TaskBuilder) : ThreadTask α :=
  task_construct α b.priority b.retries

/-- Modelled from the spec: ComparatorLess is referenced by
ThreadTask::operator< (ThreadTask.cpp:46), which std::less uses inside
PriorityQueue, but its definition is not under src/.  Section 4.1 of the
spec defines the order: a < b iff priority(a) < priority(b), or the
priorities are equal and retries_remaining(a) < retries_remaining(b). -/
def ComparatorLess (a b : ThreadTask α) : Bool :=
  decide (a.priority < b.priority ∨
    (a.priority = b.priority ∧ a.retries < b.retries))

/-- Index of the parent of heap node i in the array layout used by the
std heap algorithms: (i - 1) / 2 (children of p sit at 2p+1 and 2p+2). -/
def parentIdx (i : Nat) : Nat := (i - 1) / 2

/-- Exchange the elements at positions i and j (identity when either
index is out of range).  The std heap algorithms move elements along
swap chains; expressing each step as a swap gives the same arrays. -/
def listSwap (l : List α) (i j : Nat) : List α :=
  match l[i]?, l[j]? with
  | some a, some b => (l.set i b).set j a
  | _, _ => l

/-- The std::push_heap sift-up (invoked by push_internal and
emplace_internal, PriorityQueue.hpp:461-484): while node i has a parent
that compares less than it, exchange the two and continue from the
parent. -/
def siftUp (comp : α → α → Bool) (l : List α) (i : Nat) : List α :=
  if h : i = 0 then l
  else
    match l[parentIdx i]?, l[i]? with
    | some a, some b =>
      if comp a b then siftUp comp (listSwap l (parentIdx i) i) (parentIdx i)
      else l
    | _, _ => l
termination_by i
decreasing_by
  simp only [parentIdx]
  omega

/-- push_internal / emplace_internal (PriorityQueue.hpp:461-484): append
the new element with push_back / emplace_back, then
std::push_heap(begin, end, comp) sifts the appended element up. -/
def heapPush (comp : α → α → Bool) (l : List α) (x : α) : List α :=
  siftUp comp (l ++ [x]) l.length

/-- The heap invariant maintained by the std heap algorithms under
comparator comp: no parent compares less than one of its children. -/
def IsHeap (comp : α → α → Bool) (l : List α) : Prop :=
  ∀ i, (h : i < l.length) → 0 < i →
    comp (l.get ⟨parentIdx i, by simp only [parentIdx]; omega⟩) (l.get ⟨i, h⟩) = false

instance isHeap_decidable (comp : α → α → Bool) (l : List α) :
    Decidable (IsHeap comp l) := by
  unfold IsHeap
  exact Nat.decidableBallLT l.length fun i h =>
    0 < i → comp (l.get ⟨parentIdx i, by simp only [parentIdx]; omega⟩) (l.get ⟨i, h⟩) = false

/-- The sift-down performed by std::pop_heap over the first n-1 slots
(PriorityQueue.hpp:511-524): starting from the root, repeatedly exchange
the current node with its larger child while that child compares
greater.  libstdc++ realises this as a hole that travels to a leaf
followed by a sift-up along the same path; the resulting array is the
same. -/
def siftDown (comp : α → α → Bool) (l : List α) (i : Nat) : List α :=
  if h1 : 2 * i + 1 < l.length then
    if h2 : 2 * i + 2 < l.length then
      if comp (l.get ⟨2 * i + 1, h1⟩) (l.get ⟨2 * i + 2, h2⟩) then
        if comp (l.get ⟨i, by omega⟩) (l.get ⟨2 * i + 2, h2⟩) then
          siftDown comp (listSwap l i (2 * i + 2)) (2 * i + 2)
        else l
      else
        if comp (l.get ⟨i, by omega⟩) (l.get ⟨2 * i + 1, h1⟩) then
          siftDown comp (listSwap l i (2 * i + 1)) (2 * i + 1)
        else l
    else
      if comp (l.get ⟨i, by omega⟩) (l.get ⟨2 * i + 1, h1⟩) then
        siftDown comp (listSwap l i (2 * i + 1)) (2 * i + 1)
      else l
  else l
termination_by l.length - i
decreasing_by
  all_goals
    simp only [listSwap]
    rcases hx : l[i]? with _ | a <;> rcases hy : l[2 * i + 1]? with _ | b <;>
      rcases hz : l[2 * i + 2]? with _ | c <;>
      simp only [List.length_set] <;> omega

/-- pop_top_internal (PriorityQueue.hpp:511-524): on an empty container
return nullopt; otherwise take the front element, run
std::pop_heap(begin, end, comp) — which moves the back element to the
front and sifts it down over the first n-1 slots, leaving the old front
at the back — then pop_back, and return the taken element. -/
def pop_top_internal (comp : α → α → Bool) (l : List α) :
    Option (α × List α) :=
  if h : l.length = 0 then none
  else
    some (l.get ⟨0, by omega⟩,
      siftDown comp ((l.set 0 (l.get ⟨l.length - 1, by omega⟩)).dropLast) 0)

/-- PriorityQueue push instantiated at ThreadTask, as used by the
dispatcher in priority mode (m_comp is std::less over ThreadTask, i.e.
ComparatorLess). -/
def pq_push_internal (l : List (ThreadTask α)) (x : ThreadTask α) :
    List (ThreadTask α) :=
  heapPush ComparatorLess l x

/-- PriorityQueue emplace instantiated at ThreadTask: emplace_back
constructs the record in place from the forwarded constructor arguments
and then sifts it up exactly as push does. -/
def pq_emplace_internal (l : List (ThreadTask α)) (priority retries : Nat) :
    List (ThreadTask α) :=
  heapPush ComparatorLess l (task_construct α priority retries)

/-- PriorityQueue pop_top instantiated at ThreadTask. -/
def pq_pop_top_internal (l : List (ThreadTask α)) :
    Option (ThreadTask α × List (ThreadTask α)) :=
  pop_top_internal ComparatorLess l

/-- std::clamp(v, lo, hi) on size_t values. -/
def clampNat (v lo hi : Nat) : Nat :=
  if v < lo then lo else if hi < v then hi else v

/-- The worker count chosen by the ThreadPool constructor
(ThreadPool.hpp:464): std::clamp(number_threads, m_lower_threshold,
m_upper_threshold) with m_lower_threshold = 1. -/
def initialWorkers (ub requested : Nat) : Nat :=
  clampNat requested 1 ub

/-- One evaluation of adjust_workers (ThreadPool.hpp:818-859) acting on
the worker count.  task_count and worker_count are snapshots taken at
entry; thr models the static threshold ceil(m_upper_threshold * 0.2)
(at least 1 for any positive upper bound); idle says whether
m_idle_threads is non-empty.  The shrink branch retires the chosen idle
worker (request_stop has just succeeded, so the stop_requested check
passes); the grow branch then spawns
min(task_count - worker_count, ub - worker_count) workers via
create_task, still comparing against the entry snapshot. -/
def adjust_workers (ub thr taskCount : Nat) (idle : Bool) (w : Nat) : Nat :=
  let afterShrink :=
    if taskCount < w ∧ idle = true ∧ thr < w then w - 1 else w
  if w < taskCount ∧ w < ub then
    afterShrink + Nat.min (taskCount - w) (ub - w)
  else afterShrink

/-- The worker counts reachable while the dispatcher runs: the
constructor establishes the clamped initial count, and every later
mutation of m_workers goes through an adjust_workers evaluation with
some observed task count and idle-set state. -/
inductive ReachableWorkers (ub thr : Nat) : Nat → Prop where
  | init (requested : Nat) :
      ReachableWorkers ub thr (initialWorkers ub requested)
  | adjust (taskCount : Nat) (idle : Bool) (w : Nat) :
      ReachableWorkers ub thr w →
      ReachableWorkers ub thr (adjust_workers ub thr taskCount idle w)

/-- A callable that throws on every invocation. -/
def failCallable : Nat → Option Nat := fun _ => none

/-- A callable that returns 7 on every invocation. -/
def okCallable : Nat → Option Nat := fun _ => some 7

/-- A freshly constructed record with priority 3 and one retry. -/
def taskR1 : ThreadTask Nat := task_construct Nat 3 1

/-- A freshly constructed record with priority 0 and no retries. -/
def taskR0 : ThreadTask Nat := task_construct Nat 0 0

/-- A record whose callable has completed: state COMPLETED, promise
fulfilled. -/
def taskCompleted : ThreadTask Nat :=
  { priority := 0, retries := 0, state := TaskState.COMPLETED
    promise := some 7, calls := 1 }

/-- A record at maximal priority 65535. -/
def taskPMax : ThreadTask Nat :=
  task_construct Nat 65535 0

/-- A record at maximal retries 255. -/
def taskRMax : ThreadTask Nat :=
  task_construct Nat 0 255

/-- Sample records for heap witnesses. -/
def taskW1 : ThreadTask Unit := task_construct Unit 5 0

/-- Second sample record for heap witnesses. -/
def taskW2 : ThreadTask Unit := task_construct Unit 2 1

/-- Third sample record for heap witnesses. -/
def taskW3 : ThreadTask Unit := task_construct Unit 9 0

/-- A record whose future has been retrieved. -/
def taskRetrieved : ThreadTask Nat :=
  { taskCompleted with state := TaskState.RETRIEVED }

/-- The heap invariant phrased through optional lookup, convenient for
the sift-up proof; equivalent to IsHeap. -/
def IsHeapOpt (comp : α → α → Bool) (l : List α) : Prop :=
  ∀ j a b, 0 < j → l[parentIdx j]? = some a → l[j]? = some b →
    comp a b = false

/-- Intermediate invariant of the sift-up: the heap property holds at
every edge except possibly the one entering node i. -/
def HeapExceptAt (comp : α → α → Bool) (l : List α) (i : Nat) : Prop :=
  ∀ j a b, 0 < j → j ≠ i → l[parentIdx j]? = some a → l[j]? = some b →
    comp a b = false

/-- Second sift-up invariant: the parent of node i already dominates the
children of node i (so that moving the value at i up one level cannot
break the edges leaving i). -/
def ChildrenDominated (comp : α → α → Bool) (l : List α) (i : Nat) : Prop :=
  0 < i → ∀ j a b, parentIdx j = i → l[parentIdx i]? = some a →
    l[j]? = some b → comp a b = false

theorem u8_wrap_sub_one (r : Nat) (h1 : 0 < r) (h2 : r ≤ 256) :
    u8_wrap_sub r 1 = r - 1 := by
  unfold u8_wrap_sub
  omega

theorem try_execute_fail_eq (t : ThreadTask Nat) :
    try_execute failCallable t = (false, { t with calls := t.calls + 1 }) := rfl

theorem execute_go_fail_calls :
    ∀ r (t : ThreadTask Nat) (h : 0 < t.retries), t.retries = r → r ≤ 255 →
      (execute_go failCallable t h).calls = t.calls + r := by
  intro r
  induction r using Nat.strong_induction_on with
  | _ r IH =>
    intro t h hr hle
    have hdec : decrease_retries ({ t with calls := t.calls + 1 } : ThreadTask Nat)
        = { t with calls := t.calls + 1, retries := r - 1 } := by
      simp only [decrease_retries, decrease_retries_local, hr,
        u8_wrap_sub_one r (by omega) (by omega)]
    rw [execute_go]
    simp only [try_execute_fail_eq]
    rw [if_neg (by simp)]
    simp only [hdec]
    split
    · rename_i h2
      have h2n : r - 1 = 0 := h2
      show t.calls + 1 = t.calls + r
      omega
    · rename_i h2
      rw [IH (r - 1) (by omega) _ (Nat.pos_of_ne_zero h2) rfl (by omega)]
      show t.calls + 1 + (r - 1) = t.calls + r
      have h2n : ¬ r - 1 = 0 := h2
      omega

/-- C1 (amended): with a callable that throws on every invocation,
ThreadTask::execute attempts the callable exactly retries times when
retries is at least 1, and 256 times when retries is 0 (the retry
counter wraps from 0 to 255); the pool worker loop attempts the
callable of a popped record exactly once, because try_execute captures
the throw internally and handle_error is not reached. -/
theorem execute_retry_attempt_counts :
    (∀ t : ThreadTask Nat, t.retries ≤ 255 →
      (execute_local failCallable t).calls =
        t.calls + (if t.retries = 0 then 256 else t.retries)) ∧
    (∀ t : ThreadTask Nat, (worker_run_task failCallable t).calls = t.calls + 1) := by
  constructor
  · intro t hle
    unfold execute_local
    simp only [try_execute_fail_eq]
    rw [if_neg (by simp)]
    by_cases hz : t.retries = 0
    · have hdec : decrease_retries ({ t with calls := t.calls + 1 } : ThreadTask Nat)
          = { t with calls := t.calls + 1, retries := 255 } := by
        simp only [decrease_retries, decrease_retries_local, hz]
        rfl
      simp only [hdec]
      rw [if_pos hz]
      split
      · rename_i h2
        have h2n : (255 : Nat) = 0 := h2
        exact absurd h2n (by decide)
      · rename_i h2
        rw [execute_go_fail_calls 255 _ (Nat.pos_of_ne_zero h2) rfl (by omega)]
    · have hdec : decrease_retries ({ t with calls := t.calls + 1 } : ThreadTask Nat)
          = { t with calls := t.calls + 1, retries := t.retries - 1 } := by
        simp only [decrease_retries, decrease_retries_local,
          u8_wrap_sub_one t.retries (by omega) (by omega)]
      simp only [hdec]
      rw [if_neg hz]
      split
      · rename_i h2
        have h2n : t.retries - 1 = 0 := h2
        show t.calls + 1 = t.calls + t.retries
        omega
      · rename_i h2
        rw [execute_go_fail_calls (t.retries - 1) _ (Nat.pos_of_ne_zero h2) rfl (by omega)]
        show t.calls + 1 + (t.retries - 1) = t.calls + t.retries
        omega
  · intro t
    unfold worker_run_task
    rw [try_execute_fail_eq]

/-- C1 (witness): a record with one retry and an always-throwing
callable is attempted exactly once by the loop, and once per pop by a
worker. -/
theorem execute_retry_attempt_counts_witness :
    taskR1.retries ≤ 255 ∧
    (execute_local failCallable taskR1).calls =
      taskR1.calls + (if taskR1.retries = 0 then 256 else taskR1.retries) ∧
    (worker_run_task failCallable taskR1).calls = taskR1.calls + 1 :=
  ⟨by decide, execute_retry_attempt_counts.1 taskR1 (by decide),
    execute_retry_attempt_counts.2 taskR1⟩

/-- C1 (counterexample): a record with retries_remaining = 1 whose
callable always throws is attempted exactly once by
ThreadTask::execute, not 1 + 1 = 2 times as the claim states. -/
theorem execute_attempts_ne_retries_plus_one :
    taskR1.retries = 1 ∧ (execute_local failCallable taskR1).calls = 1 ∧
    (1 : Nat) ≠ 1 + 1 := by decide

/-- C2 (code bug): a worker that wakes with the stop flag set returns
from its loop even when the queue is non-empty, because the exit test
at ThreadPool.hpp:769 joins the two conditions with or, although the
trailing comment of that if block and the spec state the conjunction. -/
theorem worker_exits_despite_queued_task :
    worker_should_exit true [taskR0] = true ∧
    ([taskR0] : List (ThreadTask Nat)).isEmpty = false := by decide

/-- C3 (amended): try_execute runs the callable exactly once; on normal
return it fulfils the promise with the returned value, sets the state
to COMPLETED and returns true; when the callable throws it returns
false and leaves the record unchanged apart from the attempt count — in
particular the result channel stays unfulfilled, the thrown value is
not captured into it. -/
theorem try_execute_behaviour (α : Type) (f : Nat → Option α) (t : ThreadTask α) :
    (f t.calls = none → try_execute f t = (false, { t with calls := t.calls + 1 })) ∧
    (∀ v, f t.calls = some v → t.promise = none →
      try_execute f t =
        (true, { t with calls := t.calls + 1, promise := some v,
                        state := TaskState.COMPLETED })) := by
  constructor
  · intro h
    unfold try_execute
    rw [h]
  · intro v hv hp
    unfold try_execute
    rw [hv]
    simp [hp]

/-- C3 (witness): concrete success and failure executions. -/
theorem try_execute_behaviour_witness :
    (okCallable taskR0.calls = some 7 ∧ taskR0.promise = none ∧
      try_execute okCallable taskR0 =
        (true, { taskR0 with calls := taskR0.calls + 1, promise := some 7,
                             state := TaskState.COMPLETED })) ∧
    (failCallable taskR0.calls = none ∧
      try_execute failCallable taskR0 = (false, { taskR0 with calls := taskR0.calls + 1 })) :=
  ⟨⟨rfl, rfl, (try_execute_behaviour Nat okCallable taskR0).2 7 rfl rfl⟩,
   ⟨rfl, (try_execute_behaviour Nat failCallable taskR0).1 rfl⟩⟩

/-- C3 (counterexample): on a throwing callable try_execute returns
false but does not capture the failure into the result channel: the
promise of the resulting record is still unfulfilled, contradicting the
claim that the caller's receiver observes the failure. -/
theorem try_execute_leaves_channel_unfulfilled :
    (try_execute failCallable taskR0).1 = false ∧
    ((try_execute failCallable taskR0).2).promise = none := by decide

/-- C4 (code bug): the mutators do not saturate at the integer bounds:
decrementing retries at 0 wraps to 255, incrementing priority at 65535
wraps to 0, and decrementing priority at 0 wraps to 65535 (only
increase_retries saturates as documented). -/
theorem mutators_wrap_at_bounds :
    (decrease_retries_local 1 taskR0).retries = 255 ∧
    (increase_priority_local 1 taskPMax).priority = 0 ∧
    (decrease_priority_local 1 taskR0).priority = 65535 ∧
    (increase_retries_local 10 taskRMax).retries = 255 := by decide

/-- C5 (amended): direct construction stores priority and retries
exactly and yields a PENDING record; the builder path stores both in
uint8_t fields, so after set_priority(p) and set_retries(r) the
submitted record carries p mod 256 and r mod 256. -/
theorem construct_and_builder_params (α : Type) (p r : Nat) :
    (p < 65536 → r < 256 →
      (task_construct α p r).priority = p ∧ (task_construct α p r).retries = r ∧
      (task_construct α p r).state = TaskState.PENDING) ∧
    ((builder_submit α ((builder_init.set_priority p).set_retries r)).priority = p % 256 ∧
     (builder_submit α ((builder_init.set_priority p).set_retries r)).retries = r % 256 ∧
     (builder_submit α ((builder_init.set_priority p).set_retries r)).state =
       TaskState.PENDING) := by
  constructor
  · intro hp hr
    unfold task_construct
    refine ⟨?_, ?_, rfl⟩ <;> simp <;> omega
  · unfold builder_submit TaskBuilder.set_retries TaskBuilder.set_priority builder_init
      task_construct
    refine ⟨?_, ?_, rfl⟩ <;> simp <;> omega

/-- C5 (witness): priority 3 and retries 1 survive both paths. -/
theorem construct_and_builder_params_witness :
    (3 : Nat) < 65536 ∧ (1 : Nat) < 256 ∧
    (task_construct Nat 3 1).priority = 3 ∧
    (task_construct Nat 3 1).state = TaskState.PENDING ∧
    (builder_submit Nat ((builder_init.set_priority 3).set_retries 1)).priority = 3 % 256 :=
  ⟨by decide, by decide,
    ((construct_and_builder_params Nat 3 1).1 (by decide) (by decide)).1,
    ((construct_and_builder_params Nat 3 1).1 (by decide) (by decide)).2.2,
    (construct_and_builder_params Nat 3 1).2.1⟩

/-- C5 (counterexample): submitting through the builder with priority
256 yields a record whose priority reads back as 0, not 256: the
builder stores the u16 priority in a uint8_t field. -/
theorem builder_truncates_priority :
    (builder_submit Nat ((builder_init.set_priority 256).set_retries 0)).priority = 0 ∧
    (0 : Nat) ≠ 256 := by decide

/-- C6 (amended): because the stored callable type always returns
std::any, the is_void_function branch of is_done is never taken, and
is_done returns true exactly when the state is RETRIEVED; a COMPLETED
record is not yet done. -/
theorem is_done_iff_retrieved (t : ThreadTask α) :
    is_done t = true ↔ t.state = TaskState.RETRIEVED := by
  unfold is_done is_void_function
  simp

/-- C6 (counterexample): a COMPLETED record for which the claim demands
is_done = true, while the code returns false. -/
theorem is_done_false_on_completed :
    is_done taskCompleted = false ∧ taskCompleted.state = TaskState.COMPLETED := by
  decide

/-- C7 (amended): nothing is handed over at construction (get_future on
a fresh record fails with the not-yet-executed logic_error); the future
is handed out at most once, by the first get_future call on a COMPLETED
record, and every call after that hand-off fails with
AlreadyRetrieved. -/
theorem retrieve_future_single_handoff (α : Type) :
    (∀ p r : Nat, get_future (task_construct α p r) =
      Except.error FutureError.NotYetExecuted) ∧
    (∀ t : ThreadTask α, t.state = TaskState.RETRIEVED →
      get_future t = Except.error FutureError.AlreadyRetrieved) ∧
    (∀ (t u : ThreadTask α) (res : Option α), get_future t = Except.ok (res, u) →
      get_future u = Except.error FutureError.AlreadyRetrieved) := by
  refine ⟨fun p r => rfl, fun t h => by simp [get_future, h], fun t u res h => ?_⟩
  rcases hs : t.state
  · simp [get_future, hs] at h
  · simp [get_future, hs] at h
    rcases h with ⟨h1, h2⟩
    rw [← h2]
    simp [get_future]
  · simp [get_future, hs] at h

/-- C7 (witness): concrete records exercising all three branches. -/
theorem retrieve_future_single_handoff_witness :
    get_future (task_construct Nat 2 3) = Except.error FutureError.NotYetExecuted ∧
    taskRetrieved.state = TaskState.RETRIEVED ∧
    get_future taskRetrieved = Except.error FutureError.AlreadyRetrieved ∧
    get_future taskCompleted = Except.ok (taskCompleted.promise, taskRetrieved) ∧
    get_future taskRetrieved = Except.error FutureError.AlreadyRetrieved :=
  ⟨(retrieve_future_single_handoff Nat).1 2 3, rfl,
    (retrieve_future_single_handoff Nat).2.1 taskRetrieved rfl, rfl,
    (retrieve_future_single_handoff Nat).2.2 taskCompleted taskRetrieved
      taskCompleted.promise rfl⟩

/-- C7 (counterexample): immediately after construction the receiver
has not been handed to the caller: get_future fails with the
not-yet-executed error, not with AlreadyRetrieved as the claim (exactly
one hand-off, at construction time) would require. -/
theorem retrieve_future_not_at_construction :
    get_future (task_construct Nat 0 0) = Except.error FutureError.NotYetExecuted ∧
    FutureError.NotYetExecuted ≠ FutureError.AlreadyRetrieved :=
  ⟨rfl, by decide⟩

/-- C9: every worker count reachable from the clamped initial count
through adjust_workers evaluations stays within [1, upper_bound],
provided the upper bound and the shrink floor are at least 1 (the floor
is ceil of a fifth of the upper bound, hence positive). -/
theorem workers_size_bounds (ub thr w : Nat) (hub : 1 ≤ ub) (hthr : 1 ≤ thr)
    (h : ReachableWorkers ub thr w) : 1 ≤ w ∧ w ≤ ub := by
  induction h with
  | init requested =>
    unfold initialWorkers clampNat
    split_ifs <;> omega
  | adjust taskCount idle w hw ih =>
    have hmin : Nat.min (taskCount - w) (ub - w) ≤ ub - w :=
      Nat.min_le_right (taskCount - w) (ub - w)
    simp only [adjust_workers]
    split_ifs with hA hB hC hD
    · obtain ⟨hA1, hA2⟩ := hA
      obtain ⟨hB1, hB2, hB3⟩ := hB
      omega
    · obtain ⟨hA1, hA2⟩ := hA
      omega
    · obtain ⟨hC1, hC2, hC3⟩ := hC
      omega
    · exact ih

/-- C9 (witness): with upper bound 4 and floor 2, requesting 9 workers
yields the clamped initial count, which satisfies the bounds. -/
theorem workers_size_bounds_witness :
    1 ≤ 4 ∧ 1 ≤ 2 ∧ (1 ≤ initialWorkers 4 9 ∧ initialWorkers 4 9 ≤ 4) :=
  ⟨by decide, by decide,
    workers_size_bounds 4 2 (initialWorkers 4 9) (by decide) (by decide)
      (ReachableWorkers.init 9)⟩

theorem parentIdx_lt {i : Nat} (h : 0 < i) : parentIdx i < i := by
  unfold parentIdx
  omega

theorem parentIdx_le (i : Nat) : parentIdx i ≤ i := by
  unfold parentIdx
  omega

theorem listSwap_length (l : List α) (i j : Nat) :
    (listSwap l i j).length = l.length := by
  unfold listSwap
  rcases h1 : l[i]? with _ | a <;> rcases h2 : l[j]? with _ | b <;> simp

theorem listSwap_getElem_fst (l : List α) (i j : Nat) (hi : i < l.length)
    (hj : j < l.length) : (listSwap l i j)[i]? = l[j]? := by
  unfold listSwap
  rw [List.getElem?_eq_getElem hi, List.getElem?_eq_getElem hj]
  simp only [List.getElem?_set, List.length_set]
  rcases eq_or_ne j i with rfl | hne
  · simp [List.getElem?_eq_getElem hi, hi]
  · simp [hne, hi, List.getElem?_eq_getElem hj]

theorem listSwap_getElem_snd (l : List α) (i j : Nat) (hi : i < l.length)
    (hj : j < l.length) : (listSwap l i j)[j]? = l[i]? := by
  unfold listSwap
  rw [List.getElem?_eq_getElem hi, List.getElem?_eq_getElem hj]
  simp only [List.getElem?_set, List.length_set]
  simp [hj, List.getElem?_eq_getElem hi]

theorem listSwap_getElem_other (l : List α) (i j k : Nat) (hki : k ≠ i)
    (hkj : k ≠ j) : (listSwap l i j)[k]? = l[k]? := by
  unfold listSwap
  rcases h1 : l[i]? with _ | a <;> rcases h2 : l[j]? with _ | b <;> try rfl
  simp only [List.getElem?_set, List.length_set]
  rw [if_neg (fun hc => hkj hc.symm), if_neg (fun hc => hki hc.symm)]

theorem siftUp_isHeapOpt (comp : α → α → Bool)
    (hasym : ∀ a b, comp a b = true → comp b a = false)
    (htr : ∀ a b c, comp a b = true → comp b c = true → comp a c = true)
    (hntr : ∀ a b c, comp a b = false → comp b c = false → comp a c = false) :
    ∀ i (l : List α), HeapExceptAt comp l i → ChildrenDominated comp l i →
      IsHeapOpt comp (siftUp comp l i) := by
  intro i
  induction i using Nat.strong_induction_on with
  | _ i IH =>
    intro l H C
    rw [siftUp]
    split_ifs with h0
    · subst h0
      intro j u v hj hpu hjv
      exact H j u v hj (by omega) hpu hjv
    · rcases hp : l[parentIdx i]? with _ | a <;> rcases hq : l[i]? with _ | b <;>
        simp only [hp, hq]
      · intro j u v hj hpu hjv
        have hjl : j < l.length := (List.getElem?_eq_some.mp hjv).1
        have hil : l.length ≤ parentIdx i := List.getElem?_eq_none_iff.mp hp
        have hple : parentIdx i ≤ i := parentIdx_le i
        exact H j u v hj (by omega) hpu hjv
      · intro j u v hj hpu hjv
        have hjl : j < l.length := (List.getElem?_eq_some.mp hjv).1
        have hil : l.length ≤ parentIdx i := List.getElem?_eq_none_iff.mp hp
        have hple : parentIdx i ≤ i := parentIdx_le i
        exact H j u v hj (by omega) hpu hjv
      · intro j u v hj hpu hjv
        have hjl : j < l.length := (List.getElem?_eq_some.mp hjv).1
        have hil : l.length ≤ i := List.getElem?_eq_none_iff.mp hq
        exact H j u v hj (by omega) hpu hjv
      · by_cases hc : comp a b = true
        · rw [if_pos hc]
          have hil : i < l.length := (List.getElem?_eq_some.mp hq).1
          have hpl : parentIdx i < l.length := (List.getElem?_eq_some.mp hp).1
          have hpi : parentIdx i < i := parentIdx_lt (Nat.pos_of_ne_zero h0)
          apply IH (parentIdx i) hpi
          · intro j u v hj hjp hpu hjv
            rcases eq_or_ne j i with rfl | hji
            · rw [listSwap_getElem_fst l (parentIdx j) j hpl hil] at hpu
              rw [hq] at hpu
              obtain rfl : b = u := Option.some_inj.mp hpu
              rw [listSwap_getElem_snd l (parentIdx j) j hpl hil] at hjv
              rw [hp] at hjv
              obtain rfl : a = v := Option.some_inj.mp hjv
              exact hasym a b hc
            · rw [listSwap_getElem_other l (parentIdx i) i j hjp hji] at hjv
              rcases eq_or_ne (parentIdx j) (parentIdx i) with hpj | hpj1
              · rw [hpj, listSwap_getElem_fst l (parentIdx i) i hpl hil] at hpu
                rw [hq] at hpu
                obtain rfl : b = u := Option.some_inj.mp hpu
                by_cases hcv : comp b v = true
                · have h1 : comp a v = true := htr a b v hc hcv
                  have h2 : comp a v = false := H j a v hj hji (by rw [hpj, hp]) hjv
                  rw [h1] at h2
                  exact absurd h2 (by decide)
                · simpa using hcv
              · rcases eq_or_ne (parentIdx j) i with hpj2 | hpj3
                · rw [hpj2, listSwap_getElem_snd l (parentIdx i) i hpl hil] at hpu
                  rw [hp] at hpu
                  obtain rfl : a = u := Option.some_inj.mp hpu
                  exact C (Nat.pos_of_ne_zero h0) j a v hpj2 hp hjv
                · rw [listSwap_getElem_other l (parentIdx i) i (parentIdx j) hpj1 hpj3] at hpu
                  exact H j u v hj hji hpu hjv
          · intro hpp j u v hpj hgu hjv
            have hgplt : parentIdx (parentIdx i) < parentIdx i := parentIdx_lt hpp
            rw [listSwap_getElem_other l (parentIdx i) i (parentIdx (parentIdx i))
              (Nat.ne_of_lt hgplt) (Nat.ne_of_lt (Nat.lt_trans hgplt hpi))] at hgu
            have hedge : comp u a = false :=
              H (parentIdx i) u a hpp (Nat.ne_of_lt hpi) hgu hp
            rcases eq_or_ne j i with rfl | hji
            · rw [listSwap_getElem_snd l (parentIdx j) j hpl hil] at hjv
              rw [hp] at hjv
              obtain rfl : a = v := Option.some_inj.mp hjv
              exact hedge
            · have hj0 : 0 < j := by
                rcases Nat.eq_zero_or_pos j with rfl | hj
                · exact absurd (hpj.symm.trans (by unfold parentIdx; rfl)) (by omega)
                · exact hj
              have hjgt : parentIdx i < j := by
                have := parentIdx_lt hj0
                omega
              rw [listSwap_getElem_other l (parentIdx i) i j (Nat.ne_of_gt hjgt) hji] at hjv
              have hsib : comp a v = false :=
                H j a v hj0 hji (by rw [hpj, hp]) hjv
              exact hntr u a v hedge hsib
        · rw [if_neg hc]
          intro j u v hj hpu hjv
          rcases eq_or_ne j i with rfl | hne
          · rw [hp] at hpu
            obtain rfl : a = u := Option.some_inj.mp hpu
            rw [hq] at hjv
            obtain rfl : b = v := Option.some_inj.mp hjv
            simpa using hc
          · exact H j u v hj hne hpu hjv

theorem heapPush_isHeapOpt (comp : α → α → Bool)
    (hasym : ∀ a b, comp a b = true → comp b a = false)
    (htr : ∀ a b c, comp a b = true → comp b c = true → comp a c = true)
    (hntr : ∀ a b c, comp a b = false → comp b c = false → comp a c = false)
    (l : List α) (x : α) (hl : IsHeapOpt comp l) :
    IsHeapOpt comp (heapPush comp l x) := by
  unfold heapPush
  apply siftUp_isHeapOpt comp hasym htr hntr
  · intro j u v hj hjn hpu hjv
    have hjlt : j < l.length + 1 := by
      have := (List.getElem?_eq_some.mp hjv).1
      simpa using this
    have hjl : j < l.length := by omega
    have hpjl : parentIdx j < l.length :=
      Nat.lt_of_le_of_lt (parentIdx_le j) hjl
    rw [List.getElem?_append, if_pos hjl] at hjv
    rw [List.getElem?_append, if_pos hpjl] at hpu
    exact hl j u v hj hpu hjv
  · intro hn j u v hpj hgu hjv
    have hjlt : j < l.length + 1 := by
      have := (List.getElem?_eq_some.mp hjv).1
      simpa using this
    have : 2 * l.length + 1 ≤ j := by
      unfold parentIdx at hpj
      omega
    exact absurd hjlt (by omega)

theorem isHeapOpt_root_max (comp : α → α → Bool)
    (hasym : ∀ a b, comp a b = true → comp b a = false)
    (hntr : ∀ a b c, comp a b = false → comp b c = false → comp a c = false)
    (l : List α) (hh : IsHeapOpt comp l) (x : α) (hx : l[0]? = some x) :
    ∀ (j : Nat) (y : α), l[j]? = some y → comp x y = false := by
  intro j
  induction j using Nat.strong_induction_on with
  | _ j IH =>
    intro y hy
    rcases Nat.eq_zero_or_pos j with rfl | hj
    · rw [hx] at hy
      obtain rfl : x = y := Option.some_inj.mp hy
      cases hcc : comp x x
      · rfl
      · have h1 := hasym x x hcc
        rw [hcc] at h1
        exact absurd h1 (by decide)
    · have hjl : j < l.length := (List.getElem?_eq_some.mp hy).1
      have hpl : parentIdx j < l.length :=
        Nat.lt_of_le_of_lt (parentIdx_le j) hjl
      have hz : l[parentIdx j]? = some (l.get ⟨parentIdx j, hpl⟩) :=
        List.getElem?_eq_getElem hpl
      have h1 : comp x (l.get ⟨parentIdx j, hpl⟩) = false :=
        IH (parentIdx j) (parentIdx_lt hj) (l.get ⟨parentIdx j, hpl⟩) hz
      have h2 : comp (l.get ⟨parentIdx j, hpl⟩) y = false :=
        hh j (l.get ⟨parentIdx j, hpl⟩) y hj hz hy
      exact hntr _ _ _ h1 h2

theorem siftDown_length (comp : α → α → Bool) (l : List α) (i : Nat) :
    (siftDown comp l i).length = l.length := by
  rw [siftDown]
  split_ifs <;> try rfl
  all_goals rw [siftDown_length, listSwap_length]
termination_by l.length - i
decreasing_by
  all_goals simp only [listSwap_length]
  all_goals omega

theorem isHeap_iff_opt (comp : α → α → Bool) (l : List α) :
    IsHeap comp l ↔ IsHeapOpt comp l := by
  unfold IsHeap IsHeapOpt
  constructor
  · intro H j a b hj hpa hjb
    obtain ⟨hjl, hjv⟩ := List.getElem?_eq_some.mp hjb
    obtain ⟨hpl, hpv⟩ := List.getElem?_eq_some.mp hpa
    subst hjv
    subst hpv
    have := H j hjl hj
    simpa using this
  · intro H i h hi
    apply H i _ _ hi
    · exact List.getElem?_eq_getElem _
    · exact List.getElem?_eq_getElem _

theorem pop_top_internal_none_iff (comp : α → α → Bool) (l : List α) :
    pop_top_internal comp l = none ↔ l = [] := by
  constructor
  · intro hc
    by_cases h : l.length = 0
    · exact List.length_eq_zero.mp h
    · unfold pop_top_internal at hc
      rw [dif_neg h] at hc
      exact Option.noConfusion hc
  · intro hc
    subst hc
    rfl

theorem pop_top_internal_spec (comp : α → α → Bool)
    (hasym : ∀ a b, comp a b = true → comp b a = false)
    (hntr : ∀ a b c, comp a b = false → comp b c = false → comp a c = false)
    (l : List α) (hh : IsHeapOpt comp l) (hne : l ≠ []) :
    ∃ x l2, pop_top_internal comp l = some (x, l2) ∧ x ∈ l ∧
      l2.length + 1 = l.length ∧ ∀ y ∈ l, comp x y = false := by
  have hlen : ¬ l.length = 0 := fun hc => hne (List.length_eq_zero.mp hc)
  unfold pop_top_internal
  rw [dif_neg hlen]
  refine ⟨_, _, rfl, ?_, ?_, ?_⟩
  · exact List.get_mem l 0 _
  · rw [siftDown_length, List.length_dropLast, List.length_set]
    omega
  · intro y hy
    obtain ⟨n, hn⟩ := List.mem_iff_getElem?.mp hy
    exact isHeapOpt_root_max comp hasym hntr l hh _
      (List.getElem?_eq_getElem (by omega)) n y hn

theorem comparatorLess_asymm (a b : ThreadTask α) :
    ComparatorLess a b = true → ComparatorLess b a = false := by
  unfold ComparatorLess
  simp only [decide_eq_true_eq, decide_eq_false_iff_not]
  omega

theorem comparatorLess_trans (a b c : ThreadTask α) :
    ComparatorLess a b = true → ComparatorLess b c = true →
      ComparatorLess a c = true := by
  unfold ComparatorLess
  simp only [decide_eq_true_eq]
  omega

theorem comparatorLess_negtrans (a b c : ThreadTask α) :
    ComparatorLess a b = false → ComparatorLess b c = false →
      ComparatorLess a c = false := by
  unfold ComparatorLess
  simp only [decide_eq_false_iff_not]
  omega

/-- C8: on the priority queue ordered by the section 4.1 comparator,
push_internal and emplace_internal preserve the max-heap invariant of
the backing container; pop_top_internal returns nullopt exactly on the
empty container, and on a non-empty heap it returns an element of the
container that no element exceeds in the priority order and yields a
container one element shorter. -/
theorem priority_queue_heap_ops (α : Type) (l : List (ThreadTask α))
    (x : ThreadTask α) (p r : Nat) (hl : IsHeap ComparatorLess l) :
    IsHeap ComparatorLess (pq_push_internal l x) ∧
    IsHeap ComparatorLess (pq_emplace_internal l p r) ∧
    (pq_pop_top_internal l = none ↔ l = []) ∧
    (l ≠ [] → ∃ x0 l2, pq_pop_top_internal l = some (x0, l2) ∧ x0 ∈ l ∧
      l2.length + 1 = l.length ∧ ∀ y ∈ l, ComparatorLess x0 y = false) := by
  have hopt := (isHeap_iff_opt ComparatorLess l).mp hl
  refine ⟨?_, ?_, pop_top_internal_none_iff ComparatorLess l, ?_⟩
  · exact (isHeap_iff_opt ComparatorLess _).mpr
      (heapPush_isHeapOpt ComparatorLess comparatorLess_asymm comparatorLess_trans
        comparatorLess_negtrans l x hopt)
  · exact (isHeap_iff_opt ComparatorLess _).mpr
      (heapPush_isHeapOpt ComparatorLess comparatorLess_asymm comparatorLess_trans
        comparatorLess_negtrans l (task_construct α p r) hopt)
  · intro hne
    exact pop_top_internal_spec ComparatorLess comparatorLess_asymm
      comparatorLess_negtrans l hopt hne

/-- C8 (witness): a two-element heap, pushed and popped concretely. -/
theorem priority_queue_heap_ops_witness :
    IsHeap ComparatorLess [taskW1, taskW2] ∧
    ([taskW1, taskW2] : List (ThreadTask Unit)) ≠ [] ∧
    IsHeap ComparatorLess (pq_push_internal [taskW1, taskW2] taskW3) ∧
    IsHeap ComparatorLess (pq_emplace_internal [taskW1, taskW2] 9 0) ∧
    (pq_pop_top_internal ([taskW1, taskW2] : List (ThreadTask Unit)) = none ↔
      ([taskW1, taskW2] : List (ThreadTask Unit)) = []) ∧
    (∃ x0 l2, pq_pop_top_internal [taskW1, taskW2] = some (x0, l2) ∧
      x0 ∈ [taskW1, taskW2] ∧ l2.length + 1 = ([taskW1, taskW2] : List (ThreadTask Unit)).length ∧
      ∀ y ∈ ([taskW1, taskW2] : List (ThreadTask Unit)), ComparatorLess x0 y = false) :=
  ⟨by decide, by decide,
    (priority_queue_heap_ops Unit [taskW1, taskW2] taskW3 9 0 (by decide)).1,
    (priority_queue_heap_ops Unit [taskW1, taskW2] taskW3 9 0 (by decide)).2.1,
    (priority_queue_heap_ops Unit [taskW1, taskW2] taskW3 9 0 (by decide)).2.2.1,
    (priority_queue_heap_ops Unit [taskW1, taskW2] taskW3 9 0 (by decide)).2.2.2
      (by decide)⟩

/-- C10: get_future on a PENDING record throws the task-not-yet-executed
std::logic_error; on a COMPLETED record it returns the promise future
and moves the state from COMPLETED to RETRIEVED. -/
theorem get_future_pending_completed (t : ThreadTask α) :
    (t.state = TaskState.PENDING →
      get_future t = Except.error FutureError.NotYetExecuted) ∧
    (t.state = TaskState.COMPLETED →
      get_future t = Except.ok (t.promise, { t with state := TaskState.RETRIEVED })) := by
  constructor <;> intro h <;> simp [get_future, h]

/-- C10 (witness): concrete PENDING and COMPLETED records. -/
theorem get_future_pending_completed_witness :
    (taskR0.state = TaskState.PENDING ∧
      get_future taskR0 = Except.error FutureError.NotYetExecuted) ∧
    (taskCompleted.state = TaskState.COMPLETED ∧
      get_future taskCompleted =
        Except.ok (taskCompleted.promise, { taskCompleted with state := TaskState.RETRIEVED })) :=
  ⟨⟨rfl, (get_future_pending_completed taskR0).1 rfl⟩,
   ⟨rfl, (get_future_pending_completed taskCompleted).2 rfl⟩⟩

end ThreadPoolSpec
